import Mathlib

/-! Verification of the Twin Boss routing state manager (`api/app.py`).

The development embeds the state document, the mutation operations
(`host_domain`, `register_agent`, `agents_create`, `setup_date_storage`),
the strict and lenient domain normalizers, the agent slugifier and the
dynamic Traefik configuration generator, and proves the documented
invariants about them.

Modelling conventions:
* Strings are Lean `String`s.  The Python string primitives the source
  relies on (lowercasing, stripping, splitting, lexicographic
  comparison) are re-implemented on the underlying character lists so
  that every definition evaluates inside the kernel; they agree with
  CPython on the ASCII inputs the service handles.
* A Python dict field that may be absent or `None` is an `Option`;
  the source never stores an explicit `None` where it later
  distinguishes absence, so the two are conflated.
* `datetime.utcnow()` and `time.time()` are explicit arguments
  (`ts : String`, `now : Nat`): one clock reading per request, exactly
  as the source captures `ts = _now_iso()` once per handler.
* `hashlib.blake2s(..., digest_size=6).hexdigest()` is an opaque
  stdlib collaborator; it is threaded through as a function argument
  `h6 : String -> String`, since no invariant depends on its value.
* File writes are modelled by returning the written content; the
  persisted state file is a three-state `FileContent` value.
-/

namespace TwinBoss

/-! ### Python-style string primitives -/

/-- Python truthiness of an optional string: `None` and `""` are falsy;
    `none` models both an absent key and an explicit `None` value. -/
def strTruthy : Option String → Bool
  | none => false
  | some s => !s.data.isEmpty

/-- `a or b` for an optional string `a` and a plain-string default `b`. -/
def strOr (a : Option String) (b : String) : String :=
  match a with
  | some s => if s.data.isEmpty then b else s
  | none => b

/-- `a or b` where both operands are optional strings. -/
def pyOrStr (a b : Option String) : Option String :=
  match a with
  | some s => if s.data.isEmpty then b else some s
  | none => b

/-- `a or b` for an optional integer: `0` and `None` are falsy. -/
def natOr (a : Option Nat) (b : Nat) : Nat :=
  match a with
  | some n => if n = 0 then b else n
  | none => b

/-- `str.lower()` (ASCII case folding, which covers every input handled
    by the service). -/
def pyLower (s : String) : String := String.mk (s.data.map Char.toLower)

/-- `str.strip()` with the ASCII whitespace set. -/
def pyStrip (s : String) : String :=
  String.mk (((s.data.dropWhile Char.isWhitespace).reverse.dropWhile
      Char.isWhitespace).reverse)

/-- `str.rstrip("/")`. -/
def rstripSlash (s : String) : String :=
  String.mk ((s.data.reverse.dropWhile (fun c => c = '/')).reverse)

/-- `domain.replace(".", "-")`: for a single-character pattern Python's
    `str.replace` is exactly the per-character substitution. -/
def dotToDash (s : String) : String :=
  String.mk (s.data.map (fun c => if c = '.' then '-' else c))

/-- Lexicographic code-point comparison, Python `<` on `str`. -/
def charsLt : List Char → List Char → Bool
  | _, [] => false
  | [], _ :: _ => true
  | x :: xs, y :: ys =>
    if x.toNat < y.toNat then true
    else if y.toNat < x.toNat then false
    else charsLt xs ys

/-- Lexicographic code-point comparison, Python `<=` on `str`. -/
def charsLe : List Char → List Char → Bool
  | [], _ => true
  | _ :: _, [] => false
  | x :: xs, y :: ys =>
    if x.toNat < y.toNat then true
    else if y.toNat < x.toNat then false
    else charsLe xs ys

def strLt (a b : String) : Bool := charsLt a.data b.data

def strLe (a b : String) : Bool := charsLe a.data b.data

/-! ### A stable ascending sort

`list.sort(key=...)` in CPython is a stable ascending sort; any stable
ascending sort computes the same list, so the structural insertion sort
below is extensionally the one the source runs. -/

/-- Insert `x` in front of the first element `y` with `le x y`. -/
def insertLe (le : α → α → Bool) (x : α) : List α → List α
  | [] => [x]
  | y :: ys => if le x y then x :: y :: ys else y :: insertLe le x ys

/-- Stable ascending sort. -/
def pySort (le : α → α → Bool) : List α → List α
  | [] => []
  | x :: xs => insertLe le x (pySort le xs)

/-! ### `urllib.parse` host extraction

Model of `urlparse(candidate).hostname` for the inputs `_normalize_domain`
builds: optional `scheme:`, then a `//netloc` section whose host part is
lowercased; an empty host is `None`. -/

/-- Split a character list at the first occurrence of `c`, returning the
    parts before and after it. -/
def splitAtChar (c : Char) : List Char → Option (List Char × List Char)
  | [] => none
  | x :: xs =>
    if x = c then some ([], xs)
    else (splitAtChar c xs).map (fun p => (x :: p.1, p.2))

/-- Characters allowed in a URL scheme (`urllib.parse` scheme characters:
    ASCII alphanumerics and `+`, `-`, `.`). -/
def isSchemeChar (c : Char) : Bool := c.isAlphanum || c = '+' || c = '-' || c = '.'

/-- Drop a leading `scheme:` the way `urlsplit` does: the text before the
    first `:` must be nonempty, start with a letter and consist of scheme
    characters only; otherwise the URL is left untouched. -/
def dropScheme (cs : List Char) : List Char :=
  match splitAtChar ':' cs with
  | some (before, after) =>
    match before with
    | [] => cs
    | b :: bs => if b.isAlpha && (b :: bs).all isSchemeChar then after else cs
  | none => cs

/-- The `netloc` component: present only when the remainder starts with
    `//`; it extends to the next `/`, `?` or `#`. -/
def takeNetloc : List Char → List Char
  | '/' :: '/' :: rest => rest.takeWhile (fun c => !(c = '/' || c = '?' || c = '#'))
  | _ => []

/-- The part of `netloc` after the last `@` (`str.rpartition` drops any
    userinfo). -/
def afterLastAt (cs : List Char) : List Char :=
  match splitAtChar '@' cs.reverse with
  | some (before, _) => before.reverse
  | none => cs

/-- `SplitResult.hostname`: strip userinfo, take the bracketed part for
    IPv6 literals, otherwise stop at the port separator `:`; lowercase the
    result; an empty host is `None`. -/
def hostOfNetloc (netloc : List Char) : Option String :=
  let hostinfo := afterLastAt netloc
  let host :=
    match splitAtChar '[' hostinfo with
    | some (_, bracketed) =>
      match splitAtChar ']' bracketed with
      | some (h, _) => h
      | none => bracketed
    | none =>
      match splitAtChar ':' hostinfo with
      | some (h, _) => h
      | none => hostinfo
  if host.isEmpty then none else some (String.mk (host.map Char.toLower))

/-- `urlparse(url).hostname`. -/
def urlparse_hostname (url : String) : Option String :=
  hostOfNetloc (takeNetloc (dropScheme url.data))

/-- Does the string contain the substring `//`? -/
def hasDoubleSlash : List Char → Bool
  | '/' :: '/' :: _ => true
  | _ :: rest => hasDoubleSlash rest
  | [] => false

/-! ### Domain normalizer, slugifier -/

/-- `_normalize_domain`: strict canonicalization of one user-supplied host
    string; `ValueError` is modelled as `Except.error`. -/
def _normalize_domain (domain : String) : Except String String :=
  if domain.data.isEmpty then .error "domain required"
  else
    let candidate := pyStrip domain
    let candidate :=
      if hasDoubleSlash candidate.data then candidate else "http://" ++ candidate
    match urlparse_hostname candidate with
    | some host => .ok (pyLower host)
    | none => .error ("invalid domain " ++ domain)

/-- `list(dict.fromkeys(...))`: deduplicate keeping first occurrences. -/
def dedupKeep (l : List String) : List String :=
  l.foldl (fun acc x => if acc.contains x then acc else acc ++ [x]) []

/-- `_normalize_domains`: lenient bulk variant — entries that fail strict
    normalization are silently dropped; the result is sorted and unique. -/
def _normalize_domains (domains : List String) : List String :=
  let cleaned := domains.filterMap (fun item =>
    match _normalize_domain item with
    | .ok v => some v
    | .error _ => none)
  dedupKeep (pySort strLe cleaned)

/-- `slug.split("-")` on the underlying characters (Python semantics:
    `"".split("-") == [""]`, separators produce empty segments). -/
def splitOnDash : List Char → List (List Char)
  | [] => [[]]
  | c :: rest =>
    let r := splitOnDash rest
    if c = '-' then [] :: r
    else
      match r with
      | [] => [[c]]
      | seg :: segs => (c :: seg) :: segs

/-- `"-".join(parts)` on character lists. -/
def joinDash : List (List Char) → List Char
  | [] => []
  | [s] => s
  | s :: s1 :: rest => s ++ '-' :: joinDash (s1 :: rest)

/-- The deterministic part of `_slugify`: lowercase, replace every
    non-alphanumeric character by `-`, drop empty segments, re-join. -/
def slugCore (name : String) : List Char :=
  joinDash ((splitOnDash ((pyLower name).data.map
    (fun c => if c.isAlphanum then c else '-'))).filter (fun seg => !seg.isEmpty))

/-- `_slugify(name)`: the slug, or a timestamped fallback when the name has
    no alphanumeric characters (`int(time.time())` is the explicit `now`). -/
def _slugify (now : Nat) (name : String) : String :=
  if (slugCore name).isEmpty then "agent-" ++ toString now
  else String.mk (slugCore name)

/-! ### Generic container helpers (Python `dict` / first-match search) -/

/-- Decompose a list around the first element satisfying `p`
    (`next((d for d in domains if ...), None)` plus in-place mutation). -/
def splitFirst (p : α → Bool) : List α → Option (List α × α × List α)
  | [] => none
  | x :: xs =>
    if p x then some ([], x, xs)
    else (splitFirst p xs).map (fun t => (x :: t.1, t.2.1, t.2.2))

/-- Insertion-ordered dict lookup (`dict.get`). -/
def dictGet (k : String) : List (String × β) → Option β
  | [] => none
  | (k1, v) :: rest => if k1 = k then some v else dictGet k rest

/-- Insertion-ordered dict store (`d[k] = v`): replace in place, append if
    the key is new. -/
def dictInsert (k : String) (v : β) : List (String × β) → List (String × β)
  | [] => [(k, v)]
  | (k1, v1) :: rest =>
    if k1 = k then (k, v) :: rest else (k1, v1) :: dictInsert k v rest

/-! ### Data model

One structure per record dict; a field that may be absent holds an
`Option`.  `agents` is the insertion-ordered dict `slug -> record`;
`storage` is the single `"date_app"` slot (`none` = key absent; the code
never stores an empty dict there). -/

structure HistEntry where
  action : String
  at_ : String
  target : Option String := none
deriving DecidableEq, Repr

structure DomainRecord where
  domain : Option String := none
  id : Option String := none
  created_at : Option String := none
  updated_at : Option String := none
  history : List HistEntry := []
  target_service : Option String := none
  service_name : Option String := none
  router_name : Option String := none
  target_port : Option Nat := none
  target_scheme : Option String := none
  target_url : Option String := none
  entrypoint : Option String := none
  auto_ssl : Bool := false
  redirect_to_https : Bool := false
  notes : Option String := none
deriving DecidableEq, Repr

structure AgentRecord where
  name : Option String := none
  slug : Option String := none
  role : Option String := none
  rights : Option String := none
  status : Option String := none
  endpoint : Option String := none
  capabilities : List String := []
  domains : List String := []
  created_at : Option String := none
  updated_at : Option String := none
  history : List HistEntry := []
deriving DecidableEq, Repr

structure StorageRec where
  status : Option String := none
  created_at : Option String := none
  updated_at : Option String := none
  storage_engine : Option String := none
  primary_region : Option String := none
  replicas : Option Int := none
  retention_days : Option Int := none
  backup_regions : Option (List String) := none
  analytics : Option Bool := none
  encryption : Option Bool := none
  notes : Option String := none
deriving DecidableEq, Repr

structure Meta where
  created_at : Option String := none
  updated_at : Option String := none
  revision : Nat := 0
  domain_count : Option Nat := none
  agent_count : Option Nat := none
  date_storage_status : Option String := none
deriving DecidableEq, Repr

structure StateDoc where
  meta : Meta := {}
  domains : List DomainRecord := []
  storage : Option StorageRec := none
  agents : List (String × AgentRecord) := []
deriving DecidableEq, Repr

/-- `_default_state()`. -/
def _default_state (now : String) : StateDoc :=
  { meta := { created_at := some now, updated_at := some now, revision := 0 },
    domains := [],
    storage := some { status := some "uninitialized", updated_at := some now },
    agents := [] }

/-- `SERVICE_DEFAULT_PORTS`. -/
def SERVICE_DEFAULT_PORTS : List (String × Nat) :=
  [("twinboss_api", 9000), ("fastmcp", 8080), ("mcpjungle", 4000), ("docker_mcp", 8090)]

/-- `SERVICE_DEFAULT_PORTS.get(name)`. -/
def portsGet (name : String) : Option Nat :=
  (SERVICE_DEFAULT_PORTS.find? (fun p => p.1 == name)).map (fun p => p.2)

/-! ### State store -/

/-- `update_state(mutator)`: apply the transform, then recompute the
    `meta` block and bump the revision.  One `_now_iso()` reading `ts`
    per call, as in the source. -/
def update_state (mutator : StateDoc → StateDoc × ρ) (ts : String)
    (st : StateDoc) : StateDoc × ρ :=
  let r := mutator st
  let st1 := r.1
  let meta := st1.meta
  let meta1 : Meta :=
    { meta with
      created_at := some (meta.created_at.getD ts),
      updated_at := some ts,
      revision := meta.revision + 1,
      domain_count := some st1.domains.length,
      agent_count := some st1.agents.length,
      date_storage_status := some (match st1.storage with
        | none => "uninitialized"
        | some rec_ => rec_.status.getD "uninitialized") }
  ({ st1 with meta := meta1 }, r.2)

/-! ### Mutation requests (pydantic models with their declared defaults) -/

structure DomainHostRequest where
  domain : String
  target_service : Option String := none
  target_port : Option Nat := none
  target_scheme : String := "http"
  target_url : Option String := none
  entrypoint : String := "web"
  auto_ssl : Bool := true
  redirect_to_https : Bool := true
  notes : Option String := none
deriving DecidableEq, Repr

structure DateStorageRequest where
  storage_engine : String := "postgres"
  primary_region : String := "us-east-1"
  replicas : Int := 1
  retention_days : Int := 365
  backup_regions : List String := []
  analytics : Bool := false
  encryption : Bool := true
  notes : Option String := none
deriving DecidableEq, Repr

structure AgentRegistration where
  name : String
  role : String := "generalist"
  rights : String := "member"
  status : String := "active"
  endpoint : Option String := none
  capabilities : List String := []
  domains : List String := []
deriving DecidableEq, Repr

/-! ### host_domain -/

/-- Sort key of the domain list (`item["domain"]`; every record the code
    stores in the list carries a hostname, `getD ""` totalizes). -/
def domKey (e : DomainRecord) : String := e.domain.getD ""

/-- `domains.sort(key=lambda item: item["domain"])`. -/
def sortDomains (l : List DomainRecord) : List DomainRecord :=
  pySort (fun a b => strLe (domKey a) (domKey b)) l

/-- The fresh entry synthesized when the hostname is not yet present. -/
def freshDomainEntry (h6 : String → String) (normalized ts : String) : DomainRecord :=
  { domain := some normalized, id := some (h6 normalized),
    created_at := some ts, history := [] }

/-- The `entry.update({...})`, history append and
    `service_name`/`router_name` assignments of the `host_domain`
    transaction, applied to the existing record (or the fresh entry). -/
def host_apply (p : DomainHostRequest) (ts normalized : String)
    (tService tUrl : Option String) (tPort : Option Nat)
    (isNew : Bool) (base : DomainRecord) : DomainRecord :=
  let e1 : DomainRecord :=
    { base with
      target_service := tService,
      target_port := tPort,
      target_scheme := some (if p.target_scheme.data.isEmpty then "http" else p.target_scheme),
      target_url := tUrl,
      entrypoint := some (if p.entrypoint.data.isEmpty
        then (if p.auto_ssl then "websecure" else "web") else p.entrypoint),
      auto_ssl := p.auto_ssl,
      redirect_to_https := p.redirect_to_https,
      notes := p.notes,
      updated_at := some ts }
  let e2 : DomainRecord :=
    { e1 with history := e1.history ++
      [{ action := if isNew then "provisioned" else "updated", at_ := ts,
         target := pyOrStr tService tUrl }] }
  { e2 with
    service_name := pyOrStr e2.target_service e2.service_name,
    router_name := some (strOr e2.router_name (dotToDash normalized)) }

/-- The `mut(state)` closure of `host_domain`: upsert by canonical
    hostname, keep the list sorted. -/
def host_mut (h6 : String → String) (p : DomainHostRequest)
    (ts normalized : String) (tService tUrl : Option String)
    (tPort : Option Nat) (state : StateDoc) : StateDoc × DomainRecord :=
  match splitFirst (fun d => d.domain == some normalized) state.domains with
  | some (pre, e, post) =>
    let entry := host_apply p ts normalized tService tUrl tPort false e
    ({ state with domains := sortDomains (pre ++ entry :: post) }, entry)
  | none =>
    let entry := host_apply p ts normalized tService tUrl tPort true
      (freshDomainEntry h6 normalized ts)
    ({ state with domains := sortDomains (state.domains ++ [entry]) }, entry)

/-- `target_url = payload.target_url.rstrip("/") if payload.target_url else None`. -/
def hostComputedUrl (p : DomainHostRequest) : Option String :=
  match p.target_url with
  | some u => if u.data.isEmpty then none else some (rstripSlash u)
  | none => none

/-- `target_port`: the static per-service default applies only when a
    truthy `target_service` was supplied. -/
def hostComputedPort (p : DomainHostRequest) : Option Nat :=
  match p.target_service with
  | some s =>
    if s.data.isEmpty then p.target_port
    else some (natOr p.target_port ((portsGet s).getD 80))
  | none => p.target_port

/-- `POST /domains/host`: validation and normalization happen before the
    state transaction, so a rejected request leaves the document alone.
    The first component is the persisted document after the call. -/
def run_host_domain (h6 : String → String) (p : DomainHostRequest)
    (ts : String) (st : StateDoc) : StateDoc × Except String DomainRecord :=
  if !strTruthy p.target_service && !strTruthy p.target_url then
    (st, .error "target_service or target_url is required")
  else
    match _normalize_domain p.domain with
    | .error e => (st, .error e)
    | .ok normalized =>
      let r := update_state
        (host_mut h6 p ts normalized p.target_service
          (hostComputedUrl p) (hostComputedPort p)) ts st
      (r.1, .ok r.2)

/-! ### register_agent / agents_create -/

/-- `sorted(set(...))` for a list of strings. -/
def sortedSet (l : List String) : List String := dedupKeep (pySort strLe l)

/-- The `mut(state)` closure of `register_agent`. -/
def register_mut (now : Nat) (name : String) (p : AgentRegistration)
    (nds caps : List String) (ts : String) (state : StateDoc) :
    StateDoc × AgentRecord :=
  let slug := _slugify now name
  let base := (dictGet slug state.agents).getD
    { created_at := some ts, history := [] }
  let rec1 : AgentRecord :=
    { base with
      name := some name,
      slug := some slug,
      role := some p.role,
      rights := some p.rights,
      status := some p.status,
      endpoint := p.endpoint,
      capabilities := caps,
      domains := nds,
      updated_at := some ts }
  let rec2 : AgentRecord :=
    { rec1 with history := rec1.history ++ [{ action := "registered", at_ := ts }] }
  ({ state with agents := dictInsert slug rec2 state.agents }, rec2)

/-- `sorted(set(cap.strip().lower() for cap in payload.capabilities if
    cap.strip()))`. -/
def registerCaps (p : AgentRegistration) : List String :=
  sortedSet (p.capabilities.filterMap (fun cap =>
    if (pyStrip cap).data.isEmpty then none else some (pyLower (pyStrip cap))))

/-- `POST /agents/register`. -/
def run_register_agent (now : Nat) (p : AgentRegistration) (ts : String)
    (st : StateDoc) : StateDoc × Except String AgentRecord :=
  let name := pyStrip p.name
  if name.data.isEmpty then (st, .error "name is required")
  else
    let r := update_state
      (register_mut now name p (_normalize_domains p.domains)
        (registerCaps p) ts) ts st
    (r.1, .ok r.2)

/-- The agent record produced by an accepted `register_agent` call. -/
def registerRecord (now : Nat) (p : AgentRegistration) (ts : String)
    (st : StateDoc) : AgentRecord :=
  (register_mut now (pyStrip p.name) p (_normalize_domains p.domains)
    (registerCaps p) ts st).2

/-- The `mut(state)` closure of `agents_create` (the admin
    ensure-agent shortcut): keeps stored `capabilities`/`domains`. -/
def create_mut (now : Nat) (n ts : String) (state : StateDoc) :
    StateDoc × AgentRecord :=
  let slug := _slugify now n
  let base := (dictGet slug state.agents).getD
    { created_at := some ts, history := [] }
  let rec1 : AgentRecord :=
    { base with
      name := some n,
      slug := some slug,
      rights := some "admin",
      role := some "generalist",
      status := some "ready",
      capabilities := base.capabilities,
      domains := base.domains,
      updated_at := some ts }
  let rec2 : AgentRecord :=
    { rec1 with history := rec1.history ++ [{ action := "ensure-admin", at_ := ts }] }
  ({ state with agents := dictInsert slug rec2 state.agents }, rec2)

/-- `POST /agents/create`: a blank name falls back to a timestamped one. -/
def run_agents_create (now : Nat) (name ts : String) (st : StateDoc) :
    StateDoc × AgentRecord :=
  let n := if (pyStrip name).data.isEmpty then "agent-" ++ toString now
    else pyStrip name
  update_state (create_mut now n ts) ts st

/-! ### setup_date_storage -/

/-- The `mut(state)` closure of `setup_date_storage`: the existing
    (nonempty) `date_app` slot is reused, otherwise a fresh record with
    `created_at` is synthesized; all request fields are replaced. -/
def setup_mut (p : DateStorageRequest) (ts : String) (state : StateDoc) :
    StateDoc × StorageRec :=
  let base : StorageRec :=
    match state.storage with
    | some r => r
    | none => { created_at := some ts }
  let rec1 : StorageRec :=
    { base with
      storage_engine := some p.storage_engine,
      primary_region := some p.primary_region,
      replicas := some p.replicas,
      retention_days := some p.retention_days,
      backup_regions := some p.backup_regions,
      analytics := some p.analytics,
      encryption := some p.encryption,
      notes := p.notes,
      status := some "ready",
      updated_at := some ts }
  ({ state with storage := some rec1 }, rec1)

/-- `POST /storage/date/setup`. -/
def run_setup_date_storage (p : DateStorageRequest) (ts : String)
    (st : StateDoc) : StateDoc × StorageRec :=
  update_state (setup_mut p ts) ts st

/-! ### The mutation surface as one sum type -/

inductive Mutation where
  | hostDomain (p : DomainHostRequest)
  | registerAgent (p : AgentRegistration)
  | agentsCreate (name : String)
  | setupStorage (p : DateStorageRequest)
deriving DecidableEq, Repr

/-- One mutation request against the persisted document: the document
    after the call and whether the request was accepted. -/
def runMutation (h6 : String → String) (now : Nat) (ts : String) :
    Mutation → StateDoc → StateDoc × Except String Unit
  | .hostDomain p, st =>
    let r := run_host_domain h6 p ts st
    (r.1, r.2.map (fun _ => ()))
  | .registerAgent p, st =>
    let r := run_register_agent now p ts st
    (r.1, r.2.map (fun _ => ()))
  | .agentsCreate n, st =>
    let r := run_agents_create now n ts st
    (r.1, .ok ())
  | .setupStorage p, st =>
    let r := run_setup_date_storage p ts st
    (r.1, .ok ())

/-- A sequence of mutation requests, each with its own clock reading. -/
def runMutations (h6 : String → String) (now : Nat) :
    List (Mutation × String) → StateDoc → StateDoc
  | [], st => st
  | (m, ts) :: rest, st =>
    runMutations h6 now rest (runMutation h6 now ts m st).1

def exceptOk : Except ε α → Bool
  | .ok _ => true
  | .error _ => false

/-- All requests of the sequence are accepted when replayed in order. -/
def mutationsAllSucceed (h6 : String → String) (now : Nat) :
    List (Mutation × String) → StateDoc → Bool
  | [], _ => true
  | (m, ts) :: rest, st =>
    let r := runMutation h6 now ts m st
    exceptOk r.2 && mutationsAllSucceed h6 now rest r.1

/-! ### The persisted state file -/

/-- The on-disk state file: absent, unparseable, or a parsed document. -/
inductive FileContent where
  | absent
  | corrupt
  | good (doc : StateDoc)
deriving DecidableEq, Repr

/-- `_read_state_unlocked()`: an absent file yields the default document
    (without persisting); a corrupt file is replaced by the freshly
    persisted default — no error reaches the caller (the return type is a
    plain document, never an exception). -/
def _read_state_unlocked (ts : String) : FileContent → StateDoc × FileContent
  | .absent => (_default_state ts, .absent)
  | .corrupt => (_default_state ts, .good (_default_state ts))
  | .good doc => (doc, .good doc)

/-- `read_state()` (the deep copy is implicit in the pure model). -/
def read_state (ts : String) (fs : FileContent) : StateDoc × FileContent :=
  _read_state_unlocked ts fs

/-- The request validation each handler performs before entering
    `update_state`; a rejected request never touches the state file. -/
def requestCheck : Mutation → Except String Unit
  | .hostDomain p =>
    if !strTruthy p.target_service && !strTruthy p.target_url then
      .error "target_service or target_url is required"
    else
      (match _normalize_domain p.domain with
       | .error e => .error e
       | .ok _ => .ok ())
  | .registerAgent p =>
    if (pyStrip p.name).data.isEmpty then .error "name is required" else .ok ()
  | .agentsCreate _ => .ok ()
  | .setupStorage _ => .ok ()

/-- One mutation executed against the persisted file: validate, then read
    (recovering from corruption if needed), transform, persist atomically. -/
def runMutationFile (h6 : String → String) (now : Nat) (ts : String)
    (m : Mutation) (fs : FileContent) : FileContent × Except String Unit :=
  match requestCheck m with
  | .error e => (fs, .error e)
  | .ok _ =>
    let r0 := _read_state_unlocked ts fs
    let r := runMutation h6 now ts m r0.1
    (.good r.1, r.2)

/-! ### Dynamic configuration generator

`_write_domain_dynamic_config` is modelled as the pure projection from
the domain-record list to the written file content. -/

/-- The shared HTTPS-redirect middleware block. -/
def mwLines : List String :=
  ["  middlewares:",
   "    redirect-to-https:",
   "      redirectScheme:",
   "        scheme: https",
   "        permanent: true"]

/-- The effective backend target URL of one record: `target_url` verbatim
    (trailing slashes stripped) when truthy, otherwise
    `scheme://service_host:port` with the static port table fallback. -/
def entryUrl (entry : DomainRecord) : String :=
  let composed :=
    let scheme := entry.target_scheme.getD "http"
    let service_host := entry.target_service.getD "twinboss_api"
    let port := natOr entry.target_port ((portsGet service_host).getD 80)
    s!"{scheme}://{service_host}:{port}"
  match entry.target_url with
  | some u => if u.data.isEmpty then composed else rstripSlash u
  | none => composed

/-- `service_urls.setdefault(name, set()).add(url)` on an
    insertion-ordered association list of duplicate-free url lists. -/
def addServiceUrl (urls : List (String × List String)) (name url : String) :
    List (String × List String) :=
  match urls with
  | [] => [(name, [url])]
  | (n, us) :: rest =>
    if n = name then (n, if us.contains url then us else us ++ [url]) :: rest
    else (n, us) :: addServiceUrl rest name url

/-- One iteration of the router loop: records without a hostname are
    skipped; otherwise the router block is appended and the backend URL
    recorded.  The accumulator is `(lines, routers_written, service_urls)`. -/
def configStep (acc : List String × Bool × List (String × List String))
    (entry : DomainRecord) : List String × Bool × List (String × List String) :=
  match entry.domain with
  | none => acc
  | some domain =>
    if domain.data.isEmpty then acc
    else
      let router_name := strOr entry.router_name (dotToDash domain)
      let service_name := strOr entry.service_name
        (strOr entry.target_service ("svc-" ++ entry.id.getD router_name))
      let entrypoint := strOr entry.entrypoint
        (if entry.auto_ssl then "websecure" else "web")
      let block :=
        [s!"    {router_name}:",
         s!"      rule: Host(`{domain}`)",
         "      entryPoints:",
         s!"        - {entrypoint}",
         s!"      service: {service_name}"]
        ++ (if entry.redirect_to_https && !(entrypoint == "websecure") then
              ["      middlewares:", "        - redirect-to-https"]
            else [])
      (acc.1 ++ block, true, addServiceUrl acc.2.2 service_name (entryUrl entry))

/-- The services block for one backend name. -/
def serviceBlock (p : String × List String) : List String :=
  [s!"    {p.1}:", "      loadBalancer:", "        servers:"]
  ++ (pySort strLe p.2).map (fun u => s!"          - url: \"{u}\"")

/-- The full generated configuration, as its list of lines. -/
def _write_domain_dynamic_config_lines (domains : List DomainRecord) :
    List String :=
  let middleware_needed := domains.any (fun d => d.redirect_to_https)
  let lines0 := ["http:"] ++ (if middleware_needed then mwLines else [])
    ++ ["  routers:"]
  let res := domains.foldl configStep (lines0, false, [])
  let lines1 :=
    if res.2.1 then res.1
    else res.1 ++
      ["    placeholder:",
       "      rule: HostRegexp(`\x7bany:.+\x7d`)",
       "      service: noop"]
  let lines2 := lines1 ++ ["  services:"]
  match res.2.2 with
  | [] =>
    lines2 ++
      ["    noop:",
       "      loadBalancer:",
       "        servers:",
       "          - url: \"http://127.0.0.1:9000\""]
  | s :: rest =>
    lines2 ++ ((pySort (fun a b => strLe a.1 b.1) (s :: rest)).map serviceBlock).flatten

/-- `"\n".join(lines)`. -/
def joinNL : List String → String
  | [] => ""
  | [x] => x
  | x :: x1 :: xs => x ++ "\n" ++ joinNL (x1 :: xs)

/-- The written file content. -/
def _write_domain_dynamic_config (domains : List DomainRecord) : String :=
  joinNL (_write_domain_dynamic_config_lines domains) ++ "\n"

/-- The domains-collection invariant: canonical hostnames strictly
    increasing along the list — equivalently, sorted by hostname with at
    most one record per hostname. -/
def domainsOrdered (l : List DomainRecord) : Prop :=
  l.Pairwise (fun a b => strLt (domKey a) (domKey b) = true)

/-! ### Concrete sample inputs (used by witnesses and counterexamples) -/

/-- A stand-in for the opaque blake2s fingerprint function. -/
def hSix : String → String := fun _ => "h"

def reqA : DomainHostRequest :=
  { domain := "a.example.com", target_service := some "twinboss_api" }

def reqACased : DomainHostRequest :=
  { domain := "HTTPS://A.example.com/", target_service := some "twinboss_api" }

def reqShop : DomainHostRequest :=
  { domain := "shop.example.com", target_service := some "twinboss_api" }

def recA : DomainRecord := { domain := some "a.com" }

def recB : DomainRecord := { domain := some "b.com" }

def regOpsA : AgentRegistration := { name := "ops", capabilities := ["a"] }

def regOpsB : AgentRegistration := { name := "ops", capabilities := ["b"] }

/-! ### Comparator, sort and container lemmas -/

theorem charsLe_refl : ∀ xs, charsLe xs xs = true := by
  intro xs
  induction xs with
  | nil => rfl
  | cons x xs ih => simp [charsLe, ih]

theorem charsLe_total : ∀ xs ys, charsLe xs ys = true ∨ charsLe ys xs = true := by
  intro xs
  induction xs with
  | nil => intro ys; left; rfl
  | cons x xs ih =>
    intro ys
    cases ys with
    | nil => right; rfl
    | cons y ys =>
      simp only [charsLe]
      by_cases h1 : x.toNat < y.toNat
      · left; simp [h1]
      · by_cases h2 : y.toNat < x.toNat
        · right; simp [h2]
        · rw [if_neg h1, if_neg h2, if_neg h2, if_neg h1]
          exact ih ys

theorem charsLe_trans :
    ∀ xs ys zs, charsLe xs ys = true → charsLe ys zs = true →
      charsLe xs zs = true := by
  intro xs
  induction xs with
  | nil => intro ys zs _ _; rfl
  | cons x xs ih =>
    intro ys zs hxy hyz
    cases ys with
    | nil => simp [charsLe] at hxy
    | cons y ys =>
      cases zs with
      | nil => simp [charsLe] at hyz
      | cons z zs =>
        simp only [charsLe] at hxy hyz ⊢
        by_cases h1 : x.toNat < y.toNat
        · by_cases h2 : y.toNat < z.toNat
          · rw [if_pos (show x.toNat < z.toNat by omega)]
          · by_cases h3 : z.toNat < y.toNat
            · rw [if_neg h2, if_pos h3] at hyz; exact absurd hyz (by simp)
            · rw [if_pos (show x.toNat < z.toNat by omega)]
        · by_cases h4 : y.toNat < x.toNat
          · rw [if_neg h1, if_pos h4] at hxy; exact absurd hxy (by simp)
          · rw [if_neg h1, if_neg h4] at hxy
            by_cases h2 : y.toNat < z.toNat
            · rw [if_pos (show x.toNat < z.toNat by omega)]
            · by_cases h3 : z.toNat < y.toNat
              · rw [if_neg h2, if_pos h3] at hyz; exact absurd hyz (by simp)
              · rw [if_neg h2, if_neg h3] at hyz
                rw [if_neg (show ¬ x.toNat < z.toNat by omega),
                  if_neg (show ¬ z.toNat < x.toNat by omega)]
                exact ih ys zs hxy hyz

theorem charsLt_asymm :
    ∀ xs ys, charsLt xs ys = true → charsLt ys xs = true → False := by
  intro xs
  induction xs with
  | nil =>
    intro ys h1 h2
    cases ys with
    | nil => simp [charsLt] at h1
    | cons y ys => simp [charsLt] at h2
  | cons x xs ih =>
    intro ys h1 h2
    cases ys with
    | nil => simp [charsLt] at h1
    | cons y ys =>
      simp only [charsLt] at h1 h2
      by_cases ha : x.toNat < y.toNat
      · rw [if_neg (show ¬ y.toNat < x.toNat by omega), if_pos ha] at h2
        exact absurd h2 (by simp)
      · by_cases hb : y.toNat < x.toNat
        · rw [if_neg ha, if_pos hb] at h1; exact absurd h1 (by simp)
        · rw [if_neg ha, if_neg hb] at h1
          rw [if_neg hb, if_neg ha] at h2
          exact ih ys h1 h2

theorem charsLt_of_le_of_ne :
    ∀ xs ys, charsLe xs ys = true → xs ≠ ys → charsLt xs ys = true := by
  intro xs
  induction xs with
  | nil =>
    intro ys _ hne
    cases ys with
    | nil => exact absurd rfl hne
    | cons y ys => rfl
  | cons x xs ih =>
    intro ys hle hne
    cases ys with
    | nil => simp [charsLe] at hle
    | cons y ys =>
      simp only [charsLe] at hle
      simp only [charsLt]
      by_cases h1 : x.toNat < y.toNat
      · simp [h1]
      · by_cases h2 : y.toNat < x.toNat
        · rw [if_neg h1, if_pos h2] at hle; exact absurd hle (by simp)
        · have hxy : x = y := Char.ext (UInt32.ext (show x.toNat = y.toNat by omega))
          rw [if_neg h1, if_neg h2] at hle ⊢
          apply ih ys hle
          intro hcontra
          exact hne (by rw [hxy, hcontra])

theorem perm_insertLe (le : α → α → Bool) (x : α) :
    ∀ l : List α, (insertLe le x l).Perm (x :: l) := by
  intro l
  induction l with
  | nil => exact List.Perm.refl _
  | cons y ys ih =>
    simp only [insertLe]
    by_cases h : le x y = true
    · simp [h]
    · simp only [h, if_false]
      exact (ih.cons y).trans (List.Perm.swap x y ys)

theorem perm_pySort (le : α → α → Bool) :
    ∀ l : List α, (pySort le l).Perm l := by
  intro l
  induction l with
  | nil => exact List.Perm.refl _
  | cons x xs ih =>
    exact (perm_insertLe le x (pySort le xs)).trans (ih.cons x)

theorem mem_insertLe {le : α → α → Bool} {x z : α} {l : List α}
    (h : z ∈ insertLe le x l) : z = x ∨ z ∈ l :=
  List.mem_cons.mp ((perm_insertLe le x l).mem_iff.mp h)

theorem pairwise_insertLe {le : α → α → Bool}
    (htrans : ∀ a b c, le a b = true → le b c = true → le a c = true)
    (htotal : ∀ a b, le a b = true ∨ le b a = true) (x : α) :
    ∀ l : List α, l.Pairwise (fun a b => le a b = true) →
      (insertLe le x l).Pairwise (fun a b => le a b = true) := by
  intro l
  induction l with
  | nil => intro _; simp [insertLe]
  | cons y ys ih =>
    intro hp
    rcases List.pairwise_cons.mp hp with ⟨hy, hys⟩
    simp only [insertLe]
    by_cases h : le x y = true
    · simp only [h, if_true]
      refine List.pairwise_cons.mpr ⟨?_, hp⟩
      intro z hz
      rcases List.mem_cons.mp hz with hz | hz
      · subst hz; exact h
      · exact htrans x y z h (hy z hz)
    · simp only [h, if_false]
      refine List.pairwise_cons.mpr ⟨?_, ih hys⟩
      intro z hz
      rcases mem_insertLe hz with hz | hz
      · rcases htotal x y with hxy | hyx
        · exact absurd hxy h
        · rw [hz]; exact hyx
      · exact hy z hz

theorem pairwise_pySort {le : α → α → Bool}
    (htrans : ∀ a b c, le a b = true → le b c = true → le a c = true)
    (htotal : ∀ a b, le a b = true ∨ le b a = true) :
    ∀ l : List α, (pySort le l).Pairwise (fun a b => le a b = true) := by
  intro l
  induction l with
  | nil => simp [pySort]
  | cons x xs ih => exact pairwise_insertLe htrans htotal x _ ih

theorem splitFirst_eq_none {p : α → Bool} :
    ∀ {l : List α}, splitFirst p l = none → ∀ x ∈ l, p x = false := by
  intro l
  induction l with
  | nil => intro _ x hx; exact absurd hx (List.not_mem_nil x)
  | cons a as ih =>
    intro h x hx
    simp only [splitFirst] at h
    by_cases hpa : p a = true
    · simp [hpa] at h
    · rcases List.mem_cons.mp hx with hx | hx
      · subst hx; exact Bool.eq_false_iff.mpr hpa
      · rw [if_neg hpa] at h
        cases hsf : splitFirst p as with
        | none => exact ih hsf x hx
        | some t => rw [hsf] at h; simp at h

theorem splitFirst_eq_some {p : α → Bool} :
    ∀ {l : List α} {pre : List α} {e : α} {post : List α},
      splitFirst p l = some (pre, e, post) →
      l = pre ++ e :: post ∧ p e = true := by
  intro l
  induction l with
  | nil => intro pre e post h; simp [splitFirst] at h
  | cons a as ih =>
    intro pre e post h
    simp only [splitFirst] at h
    by_cases hpa : p a = true
    · rw [if_pos hpa] at h
      simp only [Option.some.injEq, Prod.mk.injEq] at h
      obtain ⟨h1, h2, h3⟩ := h
      subst h1; subst h2; subst h3
      exact ⟨by simp, hpa⟩
    · rw [if_neg hpa] at h
      cases hsf : splitFirst p as with
      | none => rw [hsf] at h; simp at h
      | some t =>
        rw [hsf] at h
        rcases t with ⟨pre1, e1, post1⟩
        simp only [Option.map_some', Option.some.injEq, Prod.mk.injEq] at h
        obtain ⟨h1, h2, h3⟩ := h
        obtain ⟨hl, hpe⟩ := ih hsf
        subst h2
        refine ⟨?_, hpe⟩
        rw [← h1, ← h3]
        simp [hl]

theorem splitFirst_isSome_of_mem {p : α → Bool} {l : List α} {x : α}
    (hx : x ∈ l) (hp : p x = true) : (splitFirst p l).isSome := by
  induction l with
  | nil => exact absurd hx (List.not_mem_nil x)
  | cons a as ih =>
    simp only [splitFirst]
    by_cases hpa : p a = true
    · simp [hpa]
    · rcases List.mem_cons.mp hx with hxa | hxa
      · subst hxa; exact absurd hp hpa
      · rw [if_neg hpa]
        cases hsf : splitFirst p as with
        | none => rw [hsf] at ih; exact absurd (ih hxa) (by simp)
        | some t => simp

theorem dictGet_dictInsert_self (k : String) (v : β) :
    ∀ l : List (String × β), dictGet k (dictInsert k v l) = some v := by
  intro l
  induction l with
  | nil => simp [dictInsert, dictGet]
  | cons p rest ih =>
    rcases p with ⟨k1, v1⟩
    simp only [dictInsert]
    by_cases h : k1 = k
    · rw [if_pos h]; simp [dictGet]
    · rw [if_neg h]; simp only [dictGet, if_neg h]; exact ih

theorem length_dictInsert_of_mem (k : String) (v : β) :
    ∀ l : List (String × β), (dictGet k l).isSome →
      (dictInsert k v l).length = l.length := by
  intro l
  induction l with
  | nil => intro h; simp [dictGet] at h
  | cons p rest ih =>
    rcases p with ⟨k1, v1⟩
    intro h
    simp only [dictInsert]
    by_cases hk : k1 = k
    · rw [if_pos hk]; simp
    · rw [if_neg hk]
      simp only [dictGet, if_neg hk] at h
      simp [ih h]

/-! ### State-store lemmas -/

theorem update_state_revision {ρ} (mutator : StateDoc → StateDoc × ρ)
    (ts : String) (st : StateDoc) :
    ((update_state mutator ts st).1).meta.revision =
      ((mutator st).1).meta.revision + 1 := rfl

theorem update_state_domains {ρ} (mutator : StateDoc → StateDoc × ρ)
    (ts : String) (st : StateDoc) :
    ((update_state mutator ts st).1).domains = ((mutator st).1).domains := rfl

theorem update_state_agents {ρ} (mutator : StateDoc → StateDoc × ρ)
    (ts : String) (st : StateDoc) :
    ((update_state mutator ts st).1).agents = ((mutator st).1).agents := rfl

theorem update_state_storage {ρ} (mutator : StateDoc → StateDoc × ρ)
    (ts : String) (st : StateDoc) :
    ((update_state mutator ts st).1).storage = ((mutator st).1).storage := rfl

theorem update_state_result {ρ} (mutator : StateDoc → StateDoc × ρ)
    (ts : String) (st : StateDoc) :
    (update_state mutator ts st).2 = (mutator st).2 := rfl

theorem host_mut_meta (h6 : String → String) (p : DomainHostRequest)
    (ts normalized : String) (tS tU : Option String) (tP : Option Nat)
    (st : StateDoc) :
    ((host_mut h6 p ts normalized tS tU tP st).1).meta = st.meta := by
  unfold host_mut
  cases splitFirst (fun d => d.domain == some normalized) st.domains with
  | none => rfl
  | some t => rcases t with ⟨pre, e, post⟩; rfl

theorem register_mut_meta (now : Nat) (name : String) (p : AgentRegistration)
    (nds caps : List String) (ts : String) (st : StateDoc) :
    ((register_mut now name p nds caps ts st).1).meta = st.meta := rfl

theorem create_mut_meta (now : Nat) (n ts : String) (st : StateDoc) :
    ((create_mut now n ts st).1).meta = st.meta := rfl

theorem setup_mut_meta (p : DateStorageRequest) (ts : String) (st : StateDoc) :
    ((setup_mut p ts st).1).meta = st.meta := rfl

/-- Every accepted mutation bumps the revision by exactly one. -/
theorem runMutation_revision (h6 : String → String) (now : Nat) (ts : String)
    (m : Mutation) (st : StateDoc)
    (h : exceptOk (runMutation h6 now ts m st).2 = true) :
    ((runMutation h6 now ts m st).1).meta.revision = st.meta.revision + 1 := by
  cases m with
  | hostDomain p =>
    simp only [runMutation, run_host_domain] at h ⊢
    by_cases hv : (!strTruthy p.target_service && !strTruthy p.target_url) = true
    · rw [if_pos hv] at h
      simp [exceptOk, Except.map] at h
    · rw [if_neg hv] at h ⊢
      cases hn : _normalize_domain p.domain with
      | error e =>
        rw [hn] at h
        simp [exceptOk, Except.map] at h
      | ok normalized =>
        dsimp only
        rw [update_state_revision, host_mut_meta]
  | registerAgent p =>
    simp only [runMutation, run_register_agent] at h ⊢
    by_cases hname : (pyStrip p.name).data.isEmpty = true
    · rw [if_pos hname] at h
      simp [exceptOk, Except.map] at h
    · rw [if_neg hname] at h ⊢
      dsimp only
      rw [update_state_revision, register_mut_meta]
  | agentsCreate n =>
    simp only [runMutation, run_agents_create]
    rw [update_state_revision, create_mut_meta]
  | setupStorage p =>
    simp only [runMutation, run_setup_date_storage]
    rw [update_state_revision, setup_mut_meta]

theorem runMutations_revision (h6 : String → String) (now : Nat) :
    ∀ (ops : List (Mutation × String)) (st : StateDoc),
      mutationsAllSucceed h6 now ops st = true →
      (runMutations h6 now ops st).meta.revision =
        st.meta.revision + ops.length := by
  intro ops
  induction ops with
  | nil => intro st _; rfl
  | cons mt rest ih =>
    rcases mt with ⟨m, ts⟩
    intro st h
    simp only [mutationsAllSucceed, Bool.and_eq_true] at h
    obtain ⟨h1, h2⟩ := h
    simp only [runMutations, List.length_cons]
    rw [ih _ h2, runMutation_revision h6 now ts m st h1]
    omega

/-- C1: for every sequence of mutation requests (`host_domain`,
`register_agent`, `agents_create`, `setup_storage`) that are all accepted,
starting from a document with revision R the final document has revision
R + N, each accepted mutation incrementing the revision by exactly 1; a
`host_domain` request rejected with the validation error (neither
`target_service` nor `target_url` supplied) leaves the persisted document
and hence its revision unchanged. -/
theorem C1_revision_monotonic :
    (∀ (h6 : String → String) (now : Nat) (ops : List (Mutation × String))
        (st : StateDoc),
      mutationsAllSucceed h6 now ops st = true →
      (runMutations h6 now ops st).meta.revision =
        st.meta.revision + ops.length)
    ∧ (∀ (h6 : String → String) (p : DomainHostRequest) (ts : String)
        (st : StateDoc),
      strTruthy p.target_service = false → strTruthy p.target_url = false →
      run_host_domain h6 p ts st =
        (st, .error "target_service or target_url is required")) := by
  constructor
  · exact fun h6 now ops st h => runMutations_revision h6 now ops st h
  · intro h6 p ts st h1 h2
    simp [run_host_domain, h1, h2]

theorem C1_revision_monotonic_witness :
    (mutationsAllSucceed (fun _ => "") 0
        [(.setupStorage {}, "t1"), (.agentsCreate "boss", "t2")]
        (_default_state "t0") = true)
    ∧ ((runMutations (fun _ => "") 0
        [(.setupStorage {}, "t1"), (.agentsCreate "boss", "t2")]
        (_default_state "t0")).meta.revision =
        (_default_state "t0").meta.revision + 2)
    ∧ (strTruthy ({ domain := "x.com" } : DomainHostRequest).target_service = false)
    ∧ (run_host_domain (fun _ => "") { domain := "x.com" } "t3" (_default_state "t0") =
        ((_default_state "t0"), .error "target_service or target_url is required")) :=
  ⟨by decide,
   C1_revision_monotonic.1 (fun _ => "") 0
     [(.setupStorage {}, "t1"), (.agentsCreate "boss", "t2")]
     (_default_state "t0") (by decide),
   by decide,
   C1_revision_monotonic.2 (fun _ => "") { domain := "x.com" } "t3"
     (_default_state "t0") (by decide) (by decide)⟩

/-! ### host_domain upsert lemmas -/

theorem run_host_domain_ok (h6 : String → String) (p : DomainHostRequest)
    (ts : String) (st : StateDoc) (d : String)
    (hv : (!strTruthy p.target_service && !strTruthy p.target_url) = false)
    (hn : _normalize_domain p.domain = .ok d) :
    run_host_domain h6 p ts st =
      ((update_state (host_mut h6 p ts d p.target_service
          (hostComputedUrl p) (hostComputedPort p)) ts st).1,
       .ok (update_state (host_mut h6 p ts d p.target_service
          (hostComputedUrl p) (hostComputedPort p)) ts st).2) := by
  simp only [run_host_domain, hv, Bool.false_eq_true, if_false, hn]

theorem host_mut_fresh (h6 : String → String) (p : DomainHostRequest)
    (ts d : String) (tS tU : Option String) (tP : Option Nat) (st : StateDoc)
    (h : ∀ e ∈ st.domains, e.domain ≠ some d) :
    host_mut h6 p ts d tS tU tP st =
      ({ st with domains := sortDomains (st.domains ++
          [host_apply p ts d tS tU tP true (freshDomainEntry h6 d ts)]) },
       host_apply p ts d tS tU tP true (freshDomainEntry h6 d ts)) := by
  unfold host_mut
  have hnone : splitFirst (fun e => e.domain == some d) st.domains = none := by
    cases hsf : splitFirst (fun e => e.domain == some d) st.domains with
    | none => rfl
    | some t =>
      rcases t with ⟨pre, e, post⟩
      obtain ⟨hl, hpe⟩ := splitFirst_eq_some hsf
      have hmem : e ∈ st.domains := by rw [hl]; simp
      rw [beq_iff_eq] at hpe
      exact absurd hpe (h e hmem)
  rw [hnone]

theorem host_mut_existing (h6 : String → String) (p : DomainHostRequest)
    (ts d : String) (tS tU : Option String) (tP : Option Nat) (st : StateDoc)
    (pre : List DomainRecord) (e : DomainRecord) (post : List DomainRecord)
    (hsf : splitFirst (fun x => x.domain == some d) st.domains =
      some (pre, e, post)) :
    host_mut h6 p ts d tS tU tP st =
      ({ st with domains :=
          sortDomains (pre ++ host_apply p ts d tS tU tP false e :: post) },
       host_apply p ts d tS tU tP false e) := by
  unfold host_mut
  rw [hsf]

theorem host_apply_domain (p : DomainHostRequest) (ts d : String)
    (tS tU : Option String) (tP : Option Nat) (isNew : Bool)
    (base : DomainRecord) :
    (host_apply p ts d tS tU tP isNew base).domain = base.domain := rfl

theorem host_apply_history (p : DomainHostRequest) (ts d : String)
    (tS tU : Option String) (tP : Option Nat) (isNew : Bool)
    (base : DomainRecord) :
    (host_apply p ts d tS tU tP isNew base).history = base.history ++
      [{ action := if isNew then "provisioned" else "updated", at_ := ts,
         target := pyOrStr tS tU }] := rfl

theorem pyOrStr_absorb (a b : Option String) :
    pyOrStr a (pyOrStr a b) = pyOrStr a b := by
  cases a with
  | none => rfl
  | some s =>
    simp only [pyOrStr]
    by_cases h : s.data.isEmpty = true
    · simp [h]
    · simp [h]

theorem strOr_none (b : String) : strOr none b = b := rfl

theorem strOr_self (x : String) : strOr (some x) x = x := by
  simp only [strOr]
  by_cases h : x.data.isEmpty = true
  · simp [h]
  · simp [h]

/-- Re-applying the same `host_domain` update to the record it produced
    changes only `updated_at` and appends one history entry. -/
theorem host_apply_twice (p1 p2 : DomainHostRequest) (ts1 ts2 d : String)
    (tS tU : Option String) (tP : Option Nat) (h6 : String → String)
    (hsch : p2.target_scheme = p1.target_scheme)
    (hep : p2.entrypoint = p1.entrypoint) (hssl : p2.auto_ssl = p1.auto_ssl)
    (hred : p2.redirect_to_https = p1.redirect_to_https)
    (hnotes : p2.notes = p1.notes) :
    host_apply p2 ts2 d tS tU tP false
      (host_apply p1 ts1 d tS tU tP true (freshDomainEntry h6 d ts1)) =
    { host_apply p1 ts1 d tS tU tP true (freshDomainEntry h6 d ts1) with
      updated_at := some ts2,
      history := (host_apply p1 ts1 d tS tU tP true
          (freshDomainEntry h6 d ts1)).history ++
        [{ action := "updated", at_ := ts2, target := pyOrStr tS tU }] } := by
  simp only [host_apply, freshDomainEntry, hsch, hep, hssl, hred, hnotes,
    strOr_none, pyOrStr_absorb, strOr_self]
  simp

/-- Two consecutive `host_domain` calls for the same canonical hostname,
starting from a document that does not yet hold it: the first call
provisions a fresh record, the second updates it in place; afterwards the
hostname is held by exactly one record and the collection grew by one. -/
theorem host_twice (h6 : String → String) (p1 p2 : DomainHostRequest)
    (ts1 ts2 : String) (st : StateDoc) (d : String)
    (hv1 : (!strTruthy p1.target_service && !strTruthy p1.target_url) = false)
    (hv2 : (!strTruthy p2.target_service && !strTruthy p2.target_url) = false)
    (hn1 : _normalize_domain p1.domain = .ok d)
    (hn2 : _normalize_domain p2.domain = .ok d)
    (habsent : ∀ e ∈ st.domains, e.domain ≠ some d) :
    ∃ r1 r2,
      (run_host_domain h6 p1 ts1 st).2 = .ok r1 ∧
      (run_host_domain h6 p2 ts2 (run_host_domain h6 p1 ts1 st).1).2 = .ok r2 ∧
      r1 = host_apply p1 ts1 d p1.target_service (hostComputedUrl p1)
        (hostComputedPort p1) true (freshDomainEntry h6 d ts1) ∧
      r2 = host_apply p2 ts2 d p2.target_service (hostComputedUrl p2)
        (hostComputedPort p2) false r1 ∧
      (((run_host_domain h6 p2 ts2 (run_host_domain h6 p1 ts1 st).1).1.domains).countP
        (fun x => x.domain == some d)) = 1 ∧
      ((run_host_domain h6 p2 ts2 (run_host_domain h6 p1 ts1 st).1).1.domains).length
        = st.domains.length + 1 := by
  have hrun1 := run_host_domain_ok h6 p1 ts1 st d hv1 hn1
  have hmut1 := host_mut_fresh h6 p1 ts1 d p1.target_service
    (hostComputedUrl p1) (hostComputedPort p1) st habsent
  set e1 := host_apply p1 ts1 d p1.target_service (hostComputedUrl p1)
    (hostComputedPort p1) true (freshDomainEntry h6 d ts1) with he1
  have hst1dom : (run_host_domain h6 p1 ts1 st).1.domains =
      sortDomains (st.domains ++ [e1]) := by
    rw [hrun1]
    show ((update_state _ ts1 st).1).domains = _
    rw [update_state_domains, hmut1]
  have hr1 : (run_host_domain h6 p1 ts1 st).2 = .ok e1 := by
    rw [hrun1]
    show Except.ok ((update_state _ ts1 st).2) = _
    rw [update_state_result, hmut1]
  have he1dom : e1.domain = some d := rfl
  have hperm1 : (sortDomains (st.domains ++ [e1])).Perm (st.domains ++ [e1]) :=
    perm_pySort _ _
  have hmem1 : e1 ∈ (run_host_domain h6 p1 ts1 st).1.domains := by
    rw [hst1dom]
    exact hperm1.mem_iff.mpr (List.mem_append.mpr (Or.inr (List.mem_singleton.mpr rfl)))
  have hsome : (splitFirst (fun x => x.domain == some d)
      ((run_host_domain h6 p1 ts1 st).1.domains)).isSome :=
    splitFirst_isSome_of_mem hmem1 (by rw [beq_iff_eq]; exact he1dom)
  obtain ⟨t, hsf⟩ := Option.isSome_iff_exists.mp hsome
  rcases t with ⟨pre, e, post⟩
  obtain ⟨hdecomp, hpe⟩ := splitFirst_eq_some hsf
  have he_eq : e = e1 := by
    have hmem' : e ∈ (run_host_domain h6 p1 ts1 st).1.domains := by
      rw [hdecomp]; simp
    rw [hst1dom] at hmem'
    rcases List.mem_append.mp (hperm1.mem_iff.mp hmem') with hmem'' | hmem''
    · rw [beq_iff_eq] at hpe
      exact absurd hpe (habsent e hmem'')
    · exact List.mem_singleton.mp hmem''
  subst he_eq
  have hrun2 := run_host_domain_ok h6 p2 ts2 (run_host_domain h6 p1 ts1 st).1
    d hv2 hn2
  have hmut2 := host_mut_existing h6 p2 ts2 d p2.target_service
    (hostComputedUrl p2) (hostComputedPort p2) (run_host_domain h6 p1 ts1 st).1
    pre e1 post hsf
  set e2 := host_apply p2 ts2 d p2.target_service (hostComputedUrl p2)
    (hostComputedPort p2) false e1 with he2
  have hst2dom : (run_host_domain h6 p2 ts2 (run_host_domain h6 p1 ts1 st).1).1.domains =
      sortDomains (pre ++ e2 :: post) := by
    rw [hrun2]
    show ((update_state _ ts2 _).1).domains = _
    rw [update_state_domains, hmut2]
  have hr2 : (run_host_domain h6 p2 ts2 (run_host_domain h6 p1 ts1 st).1).2 =
      .ok e2 := by
    rw [hrun2]
    show Except.ok ((update_state _ ts2 _).2) = _
    rw [update_state_result, hmut2]
  have he2dom : e2.domain = some d := by
    rw [he2, host_apply_domain]; exact he1dom
  have hperm2 : (sortDomains (pre ++ e2 :: post)).Perm (pre ++ e2 :: post) :=
    perm_pySort _ _
  -- counting
  have hcount_st : st.domains.countP (fun x => x.domain == some d) = 0 := by
    rw [List.countP_eq_zero]
    intro a ha
    rw [beq_iff_eq]
    simpa using habsent a ha
  have hcount1 : ((run_host_domain h6 p1 ts1 st).1.domains).countP
      (fun x => x.domain == some d) = 1 := by
    rw [hst1dom, hperm1.countP_eq, List.countP_append, hcount_st]
    simp [List.countP_cons, he1dom]
  have hcount_decomp : (pre ++ e1 :: post).countP (fun x => x.domain == some d)
      = 1 := by rw [← hdecomp]; exact hcount1
  have hpre_post : pre.countP (fun x => x.domain == some d) = 0 ∧
      post.countP (fun x => x.domain == some d) = 0 := by
    rw [List.countP_append, List.countP_cons] at hcount_decomp
    rw [hpe] at hcount_decomp
    simp at hcount_decomp
    constructor <;> omega
  have hcount2 : (((run_host_domain h6 p2 ts2
      (run_host_domain h6 p1 ts1 st).1).1.domains).countP
      (fun x => x.domain == some d)) = 1 := by
    rw [hst2dom, hperm2.countP_eq, List.countP_append, List.countP_cons]
    rw [hpre_post.1, hpre_post.2]
    simp [he2dom]
  -- lengths
  have hlen1 : ((run_host_domain h6 p1 ts1 st).1.domains).length =
      st.domains.length + 1 := by
    rw [hst1dom, hperm1.length_eq]
    simp
  have hlen_decomp : (pre ++ e1 :: post).length =
      ((run_host_domain h6 p1 ts1 st).1.domains).length := by rw [← hdecomp]
  have hlen2 : (((run_host_domain h6 p2 ts2
      (run_host_domain h6 p1 ts1 st).1).1.domains)).length =
      st.domains.length + 1 := by
    rw [hst2dom, hperm2.length_eq]
    have h1 : (pre ++ e2 :: post).length = (pre ++ e1 :: post).length := by
      simp
    omega
  exact ⟨e1, e2, hr1, hr2, he1, he2, hcount2, hlen2⟩

/-- C2: calling `host_domain` twice in sequence with identical inputs
(same domain string and same field values) yields exactly one domain
record for that hostname; after the second call the record's history has
length 2 and every field of the record equals its value after the first
call except `updated_at`, plus the one appended history entry. -/
theorem C2_idempotent_upsert (h6 : String → String) (p : DomainHostRequest)
    (ts1 ts2 : String) (st : StateDoc) (d : String)
    (hv : (!strTruthy p.target_service && !strTruthy p.target_url) = false)
    (hn : _normalize_domain p.domain = .ok d)
    (habsent : ∀ e ∈ st.domains, e.domain ≠ some d) :
    ∃ r1 r2,
      (run_host_domain h6 p ts1 st).2 = .ok r1 ∧
      (run_host_domain h6 p ts2 (run_host_domain h6 p ts1 st).1).2 = .ok r2 ∧
      (((run_host_domain h6 p ts2 (run_host_domain h6 p ts1 st).1).1.domains).countP
        (fun x => x.domain == some d)) = 1 ∧
      r2.history.length = 2 ∧
      ∃ hEntry, r2 = { r1 with
        updated_at := some ts2,
        history := r1.history ++ [hEntry] } := by
  obtain ⟨r1, r2, hr1, hr2, he1, he2, hcount, _⟩ :=
    host_twice h6 p p ts1 ts2 st d hv hv hn hn habsent
  have hh1 : r1.history.length = 1 := by rw [he1]; rfl
  have hh2 : r2.history = r1.history ++
      [⟨"updated", ts2, pyOrStr p.target_service (hostComputedUrl p)⟩] := by
    rw [he2, host_apply_history]
    simp
  refine ⟨r1, r2, hr1, hr2, hcount, ?_, ?_⟩
  · rw [hh2, List.length_append, hh1]
    simp
  · have hstep : r2 = { r1 with
        updated_at := some ts2,
        history := r1.history ++
          [⟨"updated", ts2, pyOrStr p.target_service (hostComputedUrl p)⟩] } := by
      rw [he2, he1]
      rw [host_apply_twice p p ts1 ts2 d p.target_service (hostComputedUrl p)
        (hostComputedPort p) h6 rfl rfl rfl rfl rfl]
    exact ⟨_, hstep⟩

theorem C2_idempotent_upsert_witness :
    ((!strTruthy reqA.target_service && !strTruthy reqA.target_url) = false)
    ∧ (_normalize_domain reqA.domain = .ok "a.example.com")
    ∧ (∃ r1 r2,
        (run_host_domain hSix reqA "t1" (_default_state "t0")).2 = .ok r1 ∧
        (run_host_domain hSix reqA "t2"
          (run_host_domain hSix reqA "t1" (_default_state "t0")).1).2 = .ok r2 ∧
        (((run_host_domain hSix reqA "t2"
            (run_host_domain hSix reqA "t1"
              (_default_state "t0")).1).1.domains).countP
          (fun x => x.domain == some "a.example.com")) = 1 ∧
        r2.history.length = 2 ∧
        ∃ hEntry, r2 = { r1 with
          updated_at := some "t2",
          history := r1.history ++ [hEntry] }) :=
  ⟨by decide, rfl,
   C2_idempotent_upsert hSix reqA "t1" "t2" (_default_state "t0")
     "a.example.com" (by decide) rfl
     (by intro e he; simp [_default_state] at he)⟩

/-! ### The ordering invariant of the domain collection -/

theorem charsLt_irrefl : ∀ xs, charsLt xs xs = false := by
  intro xs
  induction xs with
  | nil => rfl
  | cons x xs ih => simp [charsLt, ih]

theorem strLt_ne {a b : String} (h : strLt a b = true) : a ≠ b := by
  intro he
  subst he
  rw [strLt, charsLt_irrefl] at h
  exact absurd h (by simp)

theorem domainsOrdered_nodupKeys {l : List DomainRecord}
    (h : domainsOrdered l) : (l.map domKey).Nodup := by
  unfold List.Nodup
  rw [List.pairwise_map]
  exact h.imp (fun hab => strLt_ne hab)

theorem domainsOrdered_sort {l : List DomainRecord}
    (h : (l.map domKey).Nodup) : domainsOrdered (sortDomains l) := by
  have hs : (sortDomains l).Pairwise
      (fun a b => strLe (domKey a) (domKey b) = true) :=
    @pairwise_pySort DomainRecord (fun a b => strLe (domKey a) (domKey b))
      (fun a b c hab hbc => charsLe_trans _ _ _ hab hbc)
      (fun a b => charsLe_total _ _) l
  have hn1 : ((sortDomains l).map domKey).Nodup := by
    have hp : ((sortDomains l).map domKey).Perm (l.map domKey) :=
      (perm_pySort _ l).map domKey
    exact hp.nodup_iff.mpr h
  have hne : (sortDomains l).Pairwise (fun a b => domKey a ≠ domKey b) := by
    unfold List.Nodup at hn1
    rwa [List.pairwise_map] at hn1
  exact (hs.and hne).imp (fun hab =>
    charsLt_of_le_of_ne _ _ hab.1 (fun hd => hab.2 (String.ext hd)))

theorem hostOfNetloc_ne_nil (nl : List Char) (s : String)
    (h : hostOfNetloc nl = some s) : s.data ≠ [] := by
  simp only [hostOfNetloc] at h
  split at h
  · exact absurd h (by simp)
  · rename_i hne
    injection h with h
    rw [← h]
    intro hcontra
    have hmap : _ = ([] : List Char) := hcontra
    rw [List.map_eq_nil_iff] at hmap
    rw [hmap] at hne
    exact hne rfl

theorem normalize_ok_ne_empty {s d : String}
    (h : _normalize_domain s = .ok d) : d ≠ "" := by
  simp only [_normalize_domain] at h
  split at h
  · exact absurd h (by simp)
  · split at h
    · rename_i host hu
      injection h with h
      intro hd
      subst hd
      have hdata : ("" : String).data = host.data.map Char.toLower := by
        rw [← h]; rfl
      have hne := hostOfNetloc_ne_nil _ _ hu
      have : host.data = [] := by
        have := hdata.symm
        rwa [List.map_eq_nil_iff] at this
      exact hne this
    · exact absurd h (by simp)

/-- Every mutation preserves the sorted-and-unique domains invariant. -/
theorem domainsOrdered_runMutation (h6 : String → String) (now : Nat)
    (ts : String) (m : Mutation) (st : StateDoc)
    (h : domainsOrdered st.domains) :
    domainsOrdered ((runMutation h6 now ts m st).1.domains) := by
  cases m with
  | hostDomain p =>
    simp only [runMutation, run_host_domain]
    by_cases hv : (!strTruthy p.target_service && !strTruthy p.target_url) = true
    · rw [if_pos hv]; exact h
    · rw [if_neg hv]
      cases hn : _normalize_domain p.domain with
      | error e => exact h
      | ok d =>
        dsimp only
        rw [update_state_domains]
        have hdne : d ≠ "" := normalize_ok_ne_empty hn
        unfold host_mut
        cases hsf : splitFirst (fun x => x.domain == some d) st.domains with
        | none =>
          dsimp only
          apply domainsOrdered_sort
          rw [List.map_append, List.nodup_append]
          refine ⟨domainsOrdered_nodupKeys h, List.nodup_singleton _, ?_⟩
          intro k hk hk2
          obtain ⟨x, hx, hkx⟩ := List.mem_map.mp hk
          have hkd : k = d := by
            have : k = domKey (host_apply p ts d p.target_service
                (hostComputedUrl p) (hostComputedPort p) true
                (freshDomainEntry h6 d ts)) := by
              simpa using hk2
            exact this
          have hall := splitFirst_eq_none hsf x hx
          cases hdom : x.domain with
          | none =>
            rw [← hkx, domKey, hdom] at hkd
            exact hdne hkd.symm
          | some y =>
            rw [← hkx, domKey, hdom] at hkd
            rw [hdom] at hall
            simp only [Option.getD] at hkd
            rw [hkd] at hall
            simp at hall
        | some t =>
          rcases t with ⟨pre, e, post⟩
          dsimp only
          apply domainsOrdered_sort
          obtain ⟨hdec, _⟩ := splitFirst_eq_some hsf
          have hmapeq : ((pre ++ host_apply p ts d p.target_service
              (hostComputedUrl p) (hostComputedPort p) false e :: post).map domKey)
              = st.domains.map domKey := by
            rw [hdec]
            simp [domKey, host_apply_domain]
          rw [hmapeq]
          exact domainsOrdered_nodupKeys h
  | registerAgent p =>
    simp only [runMutation, run_register_agent]
    by_cases hname : (pyStrip p.name).data.isEmpty = true
    · rw [if_pos hname]; exact h
    · rw [if_neg hname]
      exact h
  | agentsCreate n => exact h
  | setupStorage p => exact h

/-- C3: after every mutation the domains collection is sorted by canonical
hostname with at most one record per hostname, and `host_domain` requests
for the same hostname written with different casing or scheme prefixes
(`HTTPS://A.example.com/` vs `a.example.com`) resolve to exactly one
record keyed by the canonical lowercase hostname `a.example.com`. -/
theorem C3_sorted_unique_canonical :
    (∀ (h6 : String → String) (now : Nat) (ts : String) (m : Mutation)
        (st : StateDoc), domainsOrdered st.domains →
        domainsOrdered ((runMutation h6 now ts m st).1.domains))
    ∧ (_normalize_domain "HTTPS://A.example.com/" = .ok "a.example.com")
    ∧ (_normalize_domain "a.example.com" = .ok "a.example.com")
    ∧ (∀ (h6 : String → String) (ts0 ts1 ts2 : String),
        ∃ r1 r2,
          (run_host_domain h6 reqACased ts1 (_default_state ts0)).2 = .ok r1 ∧
          (run_host_domain h6 reqA ts2
            (run_host_domain h6 reqACased ts1 (_default_state ts0)).1).2 = .ok r2 ∧
          (((run_host_domain h6 reqA ts2
            (run_host_domain h6 reqACased ts1
              (_default_state ts0)).1).1.domains).countP
            (fun x => x.domain == some "a.example.com")) = 1 ∧
          ((run_host_domain h6 reqA ts2
            (run_host_domain h6 reqACased ts1
              (_default_state ts0)).1).1.domains).length = 1 ∧
          r2.domain = some "a.example.com") := by
  refine ⟨domainsOrdered_runMutation, rfl, rfl, ?_⟩
  intro h6 ts0 ts1 ts2
  obtain ⟨r1, r2, hr1, hr2, he1, he2, hcount, hlen⟩ :=
    host_twice h6 reqACased reqA ts1 ts2 (_default_state ts0) "a.example.com"
      (by decide) (by decide) rfl rfl
      (by intro e he; simp [_default_state] at he)
  refine ⟨r1, r2, hr1, hr2, hcount, ?_, ?_⟩
  · rw [hlen]; rfl
  · rw [he2, host_apply_domain, he1, host_apply_domain]
    rfl

theorem C3_sorted_unique_canonical_witness :
    domainsOrdered (_default_state "t0").domains
    ∧ domainsOrdered ((runMutation hSix 0 "t1" (.hostDomain reqShop)
        (_default_state "t0")).1.domains)
    ∧ (∃ r1 r2,
        (run_host_domain hSix reqACased "t1" (_default_state "t0")).2 = .ok r1 ∧
        (run_host_domain hSix reqA "t2"
          (run_host_domain hSix reqACased "t1" (_default_state "t0")).1).2 = .ok r2 ∧
        (((run_host_domain hSix reqA "t2"
          (run_host_domain hSix reqACased "t1"
            (_default_state "t0")).1).1.domains).countP
          (fun x => x.domain == some "a.example.com")) = 1 ∧
        ((run_host_domain hSix reqA "t2"
          (run_host_domain hSix reqACased "t1"
            (_default_state "t0")).1).1.domains).length = 1 ∧
        r2.domain = some "a.example.com") :=
  ⟨List.Pairwise.nil,
   C3_sorted_unique_canonical.1 hSix 0 "t1" (.hostDomain reqShop)
     (_default_state "t0") List.Pairwise.nil,
   C3_sorted_unique_canonical.2.2.2 hSix "t0" "t1" "t2"⟩

/-! ### Determinism of the configuration projection -/

instance : IsAntisymm DomainRecord
    (fun a b => strLt (domKey a) (domKey b) = true) :=
  ⟨fun _ _ h1 h2 => (charsLt_asymm _ _ h1 h2).elim⟩

/-- Sorting by hostname erases the insertion order as long as the
    hostnames are unique. -/
theorem sortDomains_eq_of_perm {l l' : List DomainRecord}
    (hperm : l.Perm l') (hnd : (l.map domKey).Nodup) :
    sortDomains l = sortDomains l' := by
  have h1 : (sortDomains l).Perm (sortDomains l') :=
    (perm_pySort _ l).trans (hperm.trans (perm_pySort _ l').symm)
  have hs1 : domainsOrdered (sortDomains l) := domainsOrdered_sort hnd
  have hnd' : (l'.map domKey).Nodup := ((hperm.map domKey).nodup_iff).mp hnd
  have hs2 : domainsOrdered (sortDomains l') := domainsOrdered_sort hnd'
  exact List.eq_of_perm_of_sorted h1 hs1 hs2

/-- C4 counterexample: the Dynamic Configuration Generator is not
invariant under permutation of the raw record list — the router blocks
are emitted in list order, so two records swapped produce different
artifact text. -/
theorem C4_permutation_counterexample :
    [recB, recA].Perm [recA, recB] ∧
    _write_domain_dynamic_config [recA, recB] ≠
      _write_domain_dynamic_config [recB, recA] :=
  ⟨List.Perm.swap recA recB [], by decide⟩

/-- C4 amended: the generator is a pure function of the record list, and
its output is invariant under permutation of the record set once the list
is put back into canonical hostname order — which every mutation does
before regenerating — provided hostnames are unique keys. -/
theorem C4_deterministic_projection (l l' : List DomainRecord)
    (hperm : l.Perm l') (hnd : (l.map domKey).Nodup) :
    _write_domain_dynamic_config (sortDomains l) =
      _write_domain_dynamic_config (sortDomains l') := by
  rw [sortDomains_eq_of_perm hperm hnd]

theorem C4_deterministic_projection_witness :
    ([recB, recA].Perm [recA, recB])
    ∧ (([recB, recA].map domKey).Nodup)
    ∧ (_write_domain_dynamic_config (sortDomains [recB, recA]) =
        _write_domain_dynamic_config (sortDomains [recA, recB])) :=
  ⟨List.Perm.swap recA recB [], by decide,
   C4_deterministic_projection [recB, recA] [recA, recB]
     (List.Perm.swap recA recB []) (by decide)⟩

/-- C5 counterexample: for
`host_domain(domain="shop.example.com", target_service="twinboss_api",
auto_ssl=true, redirect_to_https=true)` with all other request fields at
their declared defaults, the regenerated artifact does NOT bind the
router to the secure entry channel: the declared default
`entrypoint="web"` is truthy, so the `auto_ssl`-based `websecure`
fallback is never consulted and no `websecure` binding appears. -/
theorem C5_websecure_counterexample :
    ("      rule: Host(`shop.example.com`)" ∈ _write_domain_dynamic_config_lines
        ((run_host_domain hSix reqShop "t1" (_default_state "t0")).1.domains))
    ∧ ("        - web" ∈ _write_domain_dynamic_config_lines
        ((run_host_domain hSix reqShop "t1" (_default_state "t0")).1.domains))
    ∧ ¬("        - websecure" ∈ _write_domain_dynamic_config_lines
        ((run_host_domain hSix reqShop "t1" (_default_state "t0")).1.domains)) := by
  decide

/-- C5 amended: for the request
`host_domain(domain="shop.example.com", target_service="twinboss_api",
auto_ssl=true, redirect_to_https=true)` with all other request fields at
their declared defaults, the regenerated artifact contains the
redirect-to-https middleware block, a router rule matching
Host(`shop.example.com`) bound to the plain `web` entry channel (the
declared default entrypoint) with the shared redirect middleware
attached, and a backend `twinboss_api` whose server URL list contains
`http://twinboss_api:9000` — the full artifact line list is computed
exactly, and is the same under two different fingerprint stand-ins and
clock readings (the artifact never mentions them). -/
theorem C5_shop_scenario :
    (_write_domain_dynamic_config_lines
      ((run_host_domain hSix reqShop "t1" (_default_state "t0")).1.domains) =
      ["http:", "  middlewares:", "    redirect-to-https:",
       "      redirectScheme:", "        scheme: https",
       "        permanent: true", "  routers:", "    shop-example-com:",
       "      rule: Host(`shop.example.com`)", "      entryPoints:",
       "        - web", "      service: twinboss_api", "      middlewares:",
       "        - redirect-to-https", "  services:", "    twinboss_api:",
       "      loadBalancer:", "        servers:",
       "          - url: \"http://twinboss_api:9000\""])
    ∧ (_write_domain_dynamic_config_lines
      ((run_host_domain (fun s => s ++ "x") reqShop "t9"
        (_default_state "t8")).1.domains) =
      _write_domain_dynamic_config_lines
      ((run_host_domain hSix reqShop "t1" (_default_state "t0")).1.domains)) :=
  ⟨by decide, by decide⟩

/-! ### register_agent lemmas, C6 and C7 -/

theorem run_register_agent_ok (now : Nat) (p : AgentRegistration)
    (ts : String) (st : StateDoc)
    (h : (pyStrip p.name).data.isEmpty = false) :
    run_register_agent now p ts st =
      ((update_state (register_mut now (pyStrip p.name) p
          (_normalize_domains p.domains) (registerCaps p) ts) ts st).1,
       .ok (registerRecord now p ts st)) := by
  simp only [run_register_agent, h, Bool.false_eq_true, if_false]
  rfl

theorem run_register_agents_eq (now : Nat) (p : AgentRegistration)
    (ts : String) (st : StateDoc)
    (h : (pyStrip p.name).data.isEmpty = false) :
    (run_register_agent now p ts st).1.agents =
      dictInsert (_slugify now (pyStrip p.name)) (registerRecord now p ts st)
        st.agents := by
  rw [run_register_agent_ok now p ts st h]
  rfl

/-- C6 counterexample: re-registering agent `ops` with capabilities
`["b"]` after a first registration with `["a"]` leaves the stored
capability set `["b"]` — the stored set is replaced by the newly supplied
set, not additively unioned into `["a", "b"]`. -/
theorem C6_union_counterexample :
    ((dictGet "ops" ((run_register_agent 0 regOpsA "t1"
        (_default_state "t0")).1.agents)).map
      (fun r => r.capabilities) = some ["a"])
    ∧ ((dictGet "ops" ((run_register_agent 0 regOpsB "t2"
        (run_register_agent 0 regOpsA "t1"
          (_default_state "t0")).1).1.agents)).map
      (fun r => r.capabilities) = some ["b"])
    ∧ (["b"] ≠ (["a", "b"] : List String)) :=
  ⟨by decide, by decide, by decide⟩

/-- C6 amended: `register_agent` merges request fields onto the existing
agent record with full-replace semantics for every mutable field,
including the `capabilities` and `domains` sets: re-registering an
existing agent stores exactly the newly supplied normalized sets,
regardless of what was stored before; only `created_at` and the
append-only `history` survive from the stored record. -/
theorem C6_register_full_replace (now : Nat) (p : AgentRegistration)
    (ts : String) (st : StateDoc)
    (hname : (pyStrip p.name).data.isEmpty = false) :
    (run_register_agent now p ts st).2 = .ok (registerRecord now p ts st)
    ∧ (registerRecord now p ts st).capabilities = registerCaps p
    ∧ (registerRecord now p ts st).domains = _normalize_domains p.domains
    ∧ (run_register_agent now p ts st).1.agents =
        dictInsert (_slugify now (pyStrip p.name))
          (registerRecord now p ts st) st.agents := by
  refine ⟨?_, rfl, rfl, run_register_agents_eq now p ts st hname⟩
  rw [run_register_agent_ok now p ts st hname]

theorem C6_register_full_replace_witness :
    ((pyStrip regOpsB.name).data.isEmpty = false)
    ∧ ((run_register_agent 1 regOpsB "t2"
        (run_register_agent 0 regOpsA "t1" (_default_state "t0")).1).2 =
        .ok (registerRecord 1 regOpsB "t2"
          (run_register_agent 0 regOpsA "t1" (_default_state "t0")).1)
      ∧ (registerRecord 1 regOpsB "t2"
          (run_register_agent 0 regOpsA "t1"
            (_default_state "t0")).1).capabilities = registerCaps regOpsB
      ∧ (registerRecord 1 regOpsB "t2"
          (run_register_agent 0 regOpsA "t1"
            (_default_state "t0")).1).domains = _normalize_domains regOpsB.domains
      ∧ (run_register_agent 1 regOpsB "t2"
          (run_register_agent 0 regOpsA "t1" (_default_state "t0")).1).1.agents =
          dictInsert (_slugify 1 (pyStrip regOpsB.name))
            (registerRecord 1 regOpsB "t2"
              (run_register_agent 0 regOpsA "t1" (_default_state "t0")).1)
            ((run_register_agent 0 regOpsA "t1" (_default_state "t0")).1).agents) :=
  ⟨by decide,
   C6_register_full_replace 1 regOpsB "t2"
     (run_register_agent 0 regOpsA "t1" (_default_state "t0")).1 (by decide)⟩

/-- C7: the slug is a deterministic function of the agent name whenever
the name has alphanumeric content (the `agent-<time>` fallback fires only
on an empty slug); two `register_agent` calls whose names resolve to the
same slug update one record in place — the agents map does not grow on
the second call and still holds the slug; concretely, `"Ops Bot!"` and
`"ops bot"` both slugify to `"ops-bot"` (non-alphanumerics collapsed to
`-`, lowercased). -/
theorem C7_slug_stable :
    (∀ (t t' : Nat) (n : String), (slugCore n).isEmpty = false →
      _slugify t n = _slugify t' n)
    ∧ (∀ t : Nat, _slugify t "Ops Bot!" = "ops-bot"
        ∧ _slugify t "ops bot" = "ops-bot")
    ∧ (∀ (now1 now2 : Nat) (p1 p2 : AgentRegistration) (ts1 ts2 : String)
        (st : StateDoc),
        (pyStrip p1.name).data.isEmpty = false →
        (pyStrip p2.name).data.isEmpty = false →
        _slugify now2 (pyStrip p2.name) = _slugify now1 (pyStrip p1.name) →
        ((run_register_agent now2 p2 ts2
            (run_register_agent now1 p1 ts1 st).1).1.agents).length =
          (((run_register_agent now1 p1 ts1 st).1.agents)).length ∧
        (dictGet (_slugify now1 (pyStrip p1.name))
          ((run_register_agent now2 p2 ts2
            (run_register_agent now1 p1 ts1 st).1).1.agents)).isSome) := by
  refine ⟨?_, ?_, ?_⟩
  · intro t t' n h
    simp [_slugify, h]
  · intro t
    constructor
    · simp only [_slugify]
      rw [if_neg (by decide)]
      rfl
    · simp only [_slugify]
      rw [if_neg (by decide)]
      rfl
  · intro now1 now2 p1 p2 ts1 ts2 st h1 h2 hslug
    have hA := run_register_agents_eq now1 p1 ts1 st h1
    have hB := run_register_agents_eq now2 p2 ts2
      (run_register_agent now1 p1 ts1 st).1 h2
    rw [hB, hslug]
    constructor
    · apply length_dictInsert_of_mem
      rw [hA, dictGet_dictInsert_self]
      rfl
    · rw [dictGet_dictInsert_self]
      rfl

theorem C7_slug_stable_witness :
    ((slugCore "Ops Bot!").isEmpty = false)
    ∧ (_slugify 3 "Ops Bot!" = _slugify 7 "Ops Bot!")
    ∧ (_slugify 0 "Ops Bot!" = "ops-bot" ∧ _slugify 0 "ops bot" = "ops-bot")
    ∧ ((pyStrip regOpsA.name).data.isEmpty = false)
    ∧ (_slugify 1 (pyStrip regOpsB.name) = _slugify 0 (pyStrip regOpsA.name))
    ∧ (((run_register_agent 1 regOpsB "t2"
          (run_register_agent 0 regOpsA "t1" (_default_state "t0")).1).1.agents).length =
        (((run_register_agent 0 regOpsA "t1" (_default_state "t0")).1.agents)).length
      ∧ (dictGet (_slugify 0 (pyStrip regOpsA.name))
          ((run_register_agent 1 regOpsB "t2"
            (run_register_agent 0 regOpsA "t1"
              (_default_state "t0")).1).1.agents)).isSome) :=
  ⟨by decide,
   C7_slug_stable.1 3 7 "Ops Bot!" (by decide),
   C7_slug_stable.2.1 0,
   by decide,
   by decide,
   C7_slug_stable.2.2 0 1 regOpsA regOpsB "t1" "t2" (_default_state "t0")
     (by decide) (by decide) (by decide)⟩

/-! ### Corrupt-state recovery (C8) -/

/-- C8: a persisted state file that exists but cannot be parsed is
self-healed: `read_state` synthesizes the fresh empty document
(revision 0, no domains, no agents, storage slot `uninitialized`),
persists it, and returns it as a plain document — no error reaches the
caller; every mutation behaves exactly as if the freshly persisted
default document had been on disk — the caller-visible result always
agrees with the healthy-default-file run, and an accepted mutation
leaves the identical persisted file as well. -/
theorem C8_corrupt_state_recovery :
    (∀ ts : String, read_state ts .corrupt =
      (_default_state ts, .good (_default_state ts)))
    ∧ (∀ ts : String, (_default_state ts).meta.revision = 0
        ∧ (_default_state ts).domains = []
        ∧ (_default_state ts).agents = []
        ∧ ((_default_state ts).storage.map (fun r => r.status)) =
            some (some "uninitialized"))
    ∧ (∀ (h6 : String → String) (now : Nat) (ts : String) (m : Mutation),
        (runMutationFile h6 now ts m .corrupt).2 =
          (runMutationFile h6 now ts m (.good (_default_state ts))).2)
    ∧ (∀ (h6 : String → String) (now : Nat) (ts : String) (m : Mutation),
        exceptOk (runMutationFile h6 now ts m .corrupt).2 = true →
        runMutationFile h6 now ts m .corrupt =
          runMutationFile h6 now ts m (.good (_default_state ts))) := by
  refine ⟨fun ts => rfl, fun ts => ⟨rfl, rfl, rfl, rfl⟩, ?_, ?_⟩
  · intro h6 now ts m
    unfold runMutationFile
    cases requestCheck m with
    | error e => rfl
    | ok u => rfl
  · intro h6 now ts m h
    unfold runMutationFile at h ⊢
    cases hc : requestCheck m with
    | error e =>
      rw [hc] at h
      simp [exceptOk] at h
    | ok u => rfl

theorem C8_corrupt_state_recovery_witness :
    (read_state "t0" .corrupt =
      (_default_state "t0", .good (_default_state "t0")))
    ∧ ((_default_state "t0").meta.revision = 0)
    ∧ ((runMutationFile hSix 0 "t1" (.setupStorage {}) .corrupt).2 =
        (runMutationFile hSix 0 "t1" (.setupStorage {})
          (.good (_default_state "t1"))).2)
    ∧ (exceptOk (runMutationFile hSix 0 "t1" (.setupStorage {}) .corrupt).2 = true)
    ∧ (runMutationFile hSix 0 "t1" (.setupStorage {}) .corrupt =
        runMutationFile hSix 0 "t1" (.setupStorage {})
          (.good (_default_state "t1"))) :=
  ⟨C8_corrupt_state_recovery.1 "t0",
   (C8_corrupt_state_recovery.2.1 "t0").1,
   C8_corrupt_state_recovery.2.2.1 hSix 0 "t1" (.setupStorage {}),
   by decide,
   C8_corrupt_state_recovery.2.2.2 hSix 0 "t1" (.setupStorage {}) (by decide)⟩

/-! ### Placeholder artifact (C9) -/

theorem configStep_skip (acc : List String × Bool × List (String × List String))
    (entry : DomainRecord) (h : strTruthy entry.domain = false) :
    configStep acc entry = acc := by
  unfold configStep
  cases hd : entry.domain with
  | none => rfl
  | some s =>
    rw [hd] at h
    have h1 : s.data.isEmpty = true := by simpa [strTruthy] using h
    dsimp only
    rw [if_pos h1]

theorem foldl_configStep_skip :
    ∀ (l : List DomainRecord), (∀ e ∈ l, strTruthy e.domain = false) →
      ∀ acc, l.foldl configStep acc = acc := by
  intro l
  induction l with
  | nil => intro _ acc; rfl
  | cons e es ih =>
    intro h acc
    rw [List.foldl_cons, configStep_skip acc e (h e (List.mem_cons_self e es))]
    exact ih (fun x hx => h x (List.mem_cons_of_mem e hx)) acc

/-- C9: when the record list is empty, or every record lacks a hostname
(those are skipped, not fatal), the generated artifact consists of
exactly the placeholder catch-all router pointing at the static `noop`
backend with server URL `http://127.0.0.1:9000` and no other router
entries (preceded by the shared redirect middleware block whenever some
record requests it) — in particular the artifact is never empty. -/
theorem C9_placeholder_config (l : List DomainRecord)
    (h : ∀ e ∈ l, strTruthy e.domain = false) :
    _write_domain_dynamic_config_lines l =
      ["http:"]
      ++ (if l.any (fun d => d.redirect_to_https) then mwLines else [])
      ++ ["  routers:", "    placeholder:",
          "      rule: HostRegexp(`\x7bany:.+\x7d`)", "      service: noop",
          "  services:", "    noop:", "      loadBalancer:",
          "        servers:", "          - url: \"http://127.0.0.1:9000\""] := by
  unfold _write_domain_dynamic_config_lines
  dsimp only
  rw [foldl_configStep_skip l h]
  simp

theorem C9_placeholder_config_witness :
    (∀ e ∈ ([] : List DomainRecord), strTruthy e.domain = false)
    ∧ (_write_domain_dynamic_config_lines [] =
      ["http:"]
      ++ (if ([] : List DomainRecord).any (fun d => d.redirect_to_https)
          then mwLines else [])
      ++ ["  routers:", "    placeholder:",
          "      rule: HostRegexp(`\x7bany:.+\x7d`)", "      service: noop",
          "  services:", "    noop:", "      loadBalancer:",
          "        servers:", "          - url: \"http://127.0.0.1:9000\""]) :=
  ⟨fun e he => absurd he (List.not_mem_nil e),
   C9_placeholder_config [] (fun e he => absurd he (List.not_mem_nil e))⟩

/-! ### Storage profile bootstrap quirk (C10) -/

/-- C10: on a freshly bootstrapped document the default storage slot
(status `uninitialized`, only `updated_at`) already occupies the
`date_app` key, and the slot is truthy, so the first `setup_storage`
call reuses it: the resulting profile has status `ready` but NO
`created_at` field; `created_at` is initialized (to the call's
timestamp) only when the slot is entirely absent. -/
theorem C10_storage_no_created_at :
    (∀ (ts0 ts : String) (p : DateStorageRequest),
      (run_setup_date_storage p ts (_default_state ts0)).2.status = some "ready"
      ∧ (run_setup_date_storage p ts (_default_state ts0)).2.created_at = none
      ∧ (run_setup_date_storage p ts (_default_state ts0)).1.storage =
          some (run_setup_date_storage p ts (_default_state ts0)).2)
    ∧ (∀ (ts : String) (p : DateStorageRequest) (st : StateDoc),
      (run_setup_date_storage p ts { st with storage := none }).2.created_at =
        some ts
      ∧ (run_setup_date_storage p ts { st with storage := none }).2.status =
        some "ready") :=
  ⟨fun _ _ _ => ⟨rfl, rfl, rfl⟩, fun _ _ _ => ⟨rfl, rfl⟩⟩

end TwinBoss
